import Mathlib

/-!
The switch controller of `main/esp_homekit_dev_main.c` (esp32-homekit-bridge)

A shallow embedding of the controller: the FreeRTOS event group `app_event_group`
is a natural number manipulated with the bitwise operations of the C code, the
GPIO output latches are a function from pin number to level, and the user event
loop is a bounded FIFO of `(base, id)` pairs.  Handlers are state transformers;
`app_main` together with the tasks the platform runs next to it is a labelled
transition system (`SysStep`).

Platform functions (FreeRTOS, ESP-IDF drivers) are not part of the repository;
each one is modelled by the effect its call has on the state above and carries
a doc comment saying so.
-/

namespace EspHomekit

/-! ## Constants of the source file -/

/-- Source constant `#define APP_EVENT 0x101` (used as an event base). -/
def APP_EVENT : Nat := 0x101

/-- Source constant `#define APP_EVENT_SWITCH_ON 0x011`. -/
def APP_EVENT_SWITCH_ON : Int := 0x011

/-- Source constant `#define APP_EVENT_SWITCH_OFF 0x012`. -/
def APP_EVENT_SWITCH_OFF : Int := 0x012

/-- Source constant `#define SWITCH_ON_BIT 0x001`. -/
def SWITCH_ON_BIT : Nat := 0x001

/-- Source constant `#define WIFI_CONNECTED_BIT 0x002`. -/
def WIFI_CONNECTED_BIT : Nat := 0x002

/-- Source constant `#define WIFI_FAILED_BIT 0x003`. -/
def WIFI_FAILED_BIT : Nat := 0x003

/-- Source constant `#define GREEN_LED_PIN 14`. -/
def GREEN_LED_PIN : Nat := 14

/-- Source constant `#define RED_LED_PIN 32`. -/
def RED_LED_PIN : Nat := 32

/-- Source constant `#define LED_PIN 15`. -/
def LED_PIN : Nat := 15

/-- Source constant `#define LED_ACTIVE_LOW 1 // Inverts the output level if active low`. -/
def LED_ACTIVE_LOW : Nat := 1

/-- The `.queue_size = 5` of `user_event_loop_init`. -/
def APP_QUEUE_SIZE : Nat := 5

/-! ## Platform values that the source only names -/

/-- Values declared in ESP-IDF headers that the source refers to by name only.
They are parameters of the model: no theorem depends on a particular choice. -/
structure Idf where
  /-- Event base `WIFI_EVENT` (the address of a string constant). -/
  WIFI_EVENT : Nat
  /-- Event base `IP_EVENT`. -/
  IP_EVENT : Nat
  /-- Event id `WIFI_EVENT_STA_START`. -/
  WIFI_EVENT_STA_START : Int
  /-- Event id `IP_EVENT_STA_GOT_IP`. -/
  IP_EVENT_STA_GOT_IP : Int
  /-- Milliseconds per tick, `portTICK_PERIOD_MS`. -/
  portTICK_PERIOD_MS : Nat

/-- The values of a stock ESP-IDF build at 100 Hz tick rate (addresses are arbitrary). -/
def idfDefault : Idf :=
  { WIFI_EVENT := 0x3f400120
    IP_EVENT := 0x3f400130
    WIFI_EVENT_STA_START := 2
    IP_EVENT_STA_GOT_IP := 0
    portTICK_PERIOD_MS := 10 }

/-- Result codes `esp_err_t` that occur in the model. -/
inductive EspErr where
  | ESP_OK
  | ESP_ERR_TIMEOUT
  deriving DecidableEq, Repr

/-- Pin modes of the driver that occur in the model. -/
inductive GpioMode where
  | GPIO_MODE_DISABLE
  | GPIO_MODE_INPUT
  | GPIO_MODE_OUTPUT
  deriving DecidableEq, Repr

/-! ## State -/

/-- The part of the device state the handlers read or write. -/
structure State where
  /-- Value of the event group `app_event_group`. -/
  bits : Nat
  /-- Output latch of every GPIO pin. -/
  level : Nat → Nat
  /-- Whether the output driver of a pin is enabled. -/
  output : Nat → Bool
  /-- History of `gpio_set_level (pin, level)` calls, oldest first. -/
  calls : List (Nat × Nat)
  /-- Pending events of the loop `app_event_loop_handle`, head is the oldest. -/
  queue : List (Nat × Int)

/-! ## Platform operations -/

/-- Modelled from the spec: `set(flag)` of the Shared Status Register;
FreeRTOS `xEventGroupSetBits` ors the mask into the group value. -/
def xEventGroupSetBits (bits mask : Nat) : Nat := bits ||| mask

/-- Modelled from the spec: `clear(flag)` of the Shared Status Register;
FreeRTOS `xEventGroupClearBits` ands the group value with the 32 bit complement of the mask. -/
def xEventGroupClearBits (bits mask : Nat) : Nat := bits &&& (0xFFFFFFFF ^^^ mask)

/-- Modelled from the spec: `snapshot()` of the Shared Status Register (`xEventGroupGetBits`). -/
def xEventGroupGetBits (bits : Nat) : Nat := bits

/-- C truth value of the expression `bits & mask`: the per-flag test. -/
def testBits (bits mask : Nat) : Bool := (bits &&& mask) != 0

/-- Modelled from the spec: `set_level(pin, level)` of the output driver.
The latch of `pin` becomes 1 for a non-zero `level` and 0 otherwise; the call is recorded. -/
def gpio_set_level (pin lvl : Nat) (s : State) : State :=
  { s with
    level := Function.update s.level pin (if lvl = 0 then 0 else 1)
    calls := s.calls ++ [(pin, lvl)] }

/-- Modelled from the spec: `reset(pin)` of the output driver. `gpio_reset_pin` selects the
GPIO function, disables input and output and enables the pull-up; the output latch is kept. -/
def gpio_reset_pin (pin : Nat) (s : State) : State :=
  { s with output := Function.update s.output pin false }

/-- Modelled from the spec: `set_direction(pin, mode)` of the output driver. The output
driver of the pin is enabled exactly for `GPIO_MODE_OUTPUT`; the output latch is kept. -/
def gpio_set_direction (pin : Nat) (mode : GpioMode) (s : State) : State :=
  { s with output := Function.update s.output pin (decide (mode = GpioMode.GPIO_MODE_OUTPUT)) }

/-- Modelled from the spec: `send(command, timeout)` of the Command Channel
(`esp_event_post_to` on a loop with a dedicated task). With room in the queue the event is
appended and the call returns `ESP_OK`; with a queue that stays full for the whole wait
the queue is unchanged and the call returns `ESP_ERR_TIMEOUT`. -/
def esp_event_post_to (base : Nat) (id : Int) (_ticks : Nat) (s : State) : State × EspErr :=
  if s.queue.length < APP_QUEUE_SIZE then
    ({ s with queue := s.queue ++ [(base, id)] }, EspErr.ESP_OK)
  else
    (s, EspErr.ESP_ERR_TIMEOUT)

/-! ## Handlers of the source file -/

/-- Source function `event_handler`: handler on the default loop. `esp_wifi_connect` and the log line
have no effect on `State`. -/
def event_handler (idf : Idf) (base : Nat) (id : Int) (s : State) : State :=
  if base = idf.WIFI_EVENT ∧ id = idf.WIFI_EVENT_STA_START then
    s
  else if base = idf.IP_EVENT ∧ id = idf.IP_EVENT_STA_GOT_IP then
    { s with bits := xEventGroupSetBits s.bits WIFI_CONNECTED_BIT }
  else
    s

/-- Source function `app_event_handler`: handler on the user event loop. -/
def app_event_handler (base : Nat) (id : Int) (s : State) : State :=
  if base = APP_EVENT ∧ id = APP_EVENT_SWITCH_ON then
    gpio_set_level LED_PIN (if LED_ACTIVE_LOW ≠ 0 then 0 else 1)
      { s with bits := xEventGroupSetBits s.bits SWITCH_ON_BIT }
  else if base = APP_EVENT ∧ id = APP_EVENT_SWITCH_OFF then
    gpio_set_level LED_PIN (if LED_ACTIVE_LOW ≠ 0 then 1 else 0)
      { s with bits := xEventGroupClearBits s.bits SWITCH_ON_BIT }
  else
    s

/-- Outcome of an HTTP handler: the state afterwards, the body passed to
`httpd_resp_send`, and the handler's return value. -/
structure HttpOutcome where
  state : State
  body : String
  ret : EspErr

/-- Source function `switch_status_get_handler` (`GET /status`). -/
def switch_status_get_handler (s : State) : HttpOutcome :=
  let bits := xEventGroupGetBits s.bits
  { state := s
    body := if testBits bits SWITCH_ON_BIT then "1" else "0"
    ret := EspErr.ESP_OK }

/-- Source function `switch_post_on_handler` (`GET /on`): the result of the post is discarded. -/
def switch_post_on_handler (idf : Idf) (s : State) : HttpOutcome :=
  let posted := esp_event_post_to APP_EVENT APP_EVENT_SWITCH_ON (500 / idf.portTICK_PERIOD_MS) s
  { state := posted.1
    body := "1"
    ret := EspErr.ESP_OK }

/-- Source function `switch_post_off_handler` (`GET /off`): the result of the post is discarded. -/
def switch_post_off_handler (idf : Idf) (s : State) : HttpOutcome :=
  let posted := esp_event_post_to APP_EVENT APP_EVENT_SWITCH_OFF (500 / idf.portTICK_PERIOD_MS) s
  { state := posted.1
    body := "0"
    ret := EspErr.ESP_OK }

/-! ## Commands and the consumer of the user event loop -/

/-- The two commands of the Command Channel. -/
inductive Command where
  | TurnOn
  | TurnOff
  deriving DecidableEq, Repr

/-- Event id under which a command travels through the loop. -/
def Command.id : Command → Int
  | Command.TurnOn => APP_EVENT_SWITCH_ON
  | Command.TurnOff => APP_EVENT_SWITCH_OFF

/-- Queue entry of a command. -/
def Command.event (c : Command) : Nat × Int := (APP_EVENT, c.id)

/-- Level that `app_event_handler` passes to `gpio_set_level` for a command. -/
def Command.driven : Command → Nat
  | Command.TurnOn => if LED_ACTIVE_LOW ≠ 0 then 0 else 1
  | Command.TurnOff => if LED_ACTIVE_LOW ≠ 0 then 1 else 0

/-- Modelled from the spec: `receive()` of the Command Channel followed by dispatch.
One iteration of the loop task: the oldest event is removed and handed to the handler
registered for it (`user_event_loop_init` registers `app_event_handler` for both ids). -/
def app_event_loop_run_one (s : State) : State :=
  match s.queue with
  | [] => s
  | (base, id) :: rest => app_event_handler base id { s with queue := rest }

/-- The loop task run for `n` iterations. -/
def app_event_loop_run : Nat → State → State
  | 0, s => s
  | n + 1, s => app_event_loop_run n (app_event_loop_run_one s)

/-- Whether the flag and the actuator output agree: `LED_PIN` is at its active level
exactly when `SWITCH_ON_BIT` tests as set. -/
def Consistent (s : State) : Prop :=
  s.level LED_PIN = 0 ↔ testBits s.bits SWITCH_ON_BIT = true

/-- The commands `cmds` are pending in submission order and the loop task handles
one event per command. -/
def processQueued (cmds : List Command) (s : State) : State :=
  app_event_loop_run cmds.length { s with queue := cmds.map Command.event }

/-- Latches after a power-on reset: every output latch is 0. -/
def powerOnLevels : Nat → Nat := fun _ => 0

/-- A state in which flag and output agree: switch off, `LED_PIN` at its inactive level. -/
def offState : State :=
  { bits := 0, level := fun _ => 1, output := fun _ => true, calls := [], queue := [] }

/-- A state whose command queue is full. -/
def fullState : State :=
  { bits := 0, level := fun _ => 1, output := fun _ => true, calls := [],
    queue := List.replicate 5 Command.TurnOff.event }

/-! ## `app_main` and the tasks running next to it -/

/-- Position of the main task inside `app_main`: the statement it executes next. -/
inductive Pc where
  | event_group_create
  | gpio_green
  | gpio_red
  | gpio_led
  | nvs_flash_init
  | event_loop_create_default
  | wifi_init
  | wait_bits
  | check_connected
  | webserver_init
  | user_event_loop_init
  | returned
  | aborted
  deriving DecidableEq, Repr

/-- State of the whole firmware. -/
structure Sys where
  /-- Event group, output latches, driver call history and command queue. -/
  st : State
  /-- Next statement of `app_main`. -/
  pc : Pc
  /-- The local `eventBits` of `app_main`. -/
  eventBits : Nat
  /-- Whether `wifi_init` has registered `event_handler` on the default loop. -/
  handlersRegistered : Bool
  /-- Whether `httpd_start` has returned `ESP_OK`: the HTTP server accepts requests. -/
  serverStarted : Bool
  /-- Whether `user_event_loop_init` has created the user loop and registered `app_event_handler`. -/
  loopCreated : Bool

/-- What happens next in the firmware. -/
inductive Label where
  /-- The main task executes its next statement; `ok` is the outcome of the fallible
  platform call in that statement, if there is one. -/
  | main (ok : Bool)
  /-- The default event loop hands an event to `event_handler`. -/
  | netEvent (base : Nat) (id : Int)
  /-- The HTTP server runs the handler of `GET /status`. -/
  | httpStatus
  /-- The HTTP server runs the handler of `GET /on`. -/
  | httpOn
  /-- The HTTP server runs the handler of `GET /off`. -/
  | httpOff
  /-- The task of the user event loop handles its oldest pending event. -/
  | loopTask

/-- State in which `app_main` is entered: output latches `lv0`, no output driver enabled,
nothing registered, no server, no user loop. -/
def boot (lv0 : Nat → Nat) : Sys :=
  { st := { bits := 0, level := lv0, output := fun _ => false, calls := [], queue := [] }
    pc := Pc.event_group_create
    eventBits := 0
    handlersRegistered := false
    serverStarted := false
    loopCreated := false }

/-- One statement of `app_main`. A failed `ESP_ERROR_CHECK` aborts; `xEventGroupWaitBits`
with `portMAX_DELAY`, no clear on exit and wait-for-any returns the group value once
`bits & (WIFI_CONNECTED_BIT | WIFI_FAILED_BIT)` is non-zero and blocks until then. -/
def app_main_step (ok : Bool) (y : Sys) : Sys :=
  match y.pc with
  | Pc.event_group_create =>
      { y with st := { y.st with bits := 0 }, pc := Pc.gpio_green }
  | Pc.gpio_green =>
      { y with
        st := gpio_set_direction GREEN_LED_PIN GpioMode.GPIO_MODE_OUTPUT (gpio_reset_pin GREEN_LED_PIN y.st)
        pc := Pc.gpio_red }
  | Pc.gpio_red =>
      { y with
        st := gpio_set_level RED_LED_PIN 1
          (gpio_set_direction RED_LED_PIN GpioMode.GPIO_MODE_OUTPUT
            (gpio_reset_pin RED_LED_PIN y.st))
        pc := Pc.gpio_led }
  | Pc.gpio_led =>
      { y with
        st := gpio_set_direction LED_PIN GpioMode.GPIO_MODE_OUTPUT (gpio_reset_pin LED_PIN y.st)
        pc := Pc.nvs_flash_init }
  | Pc.nvs_flash_init =>
      if ok then { y with pc := Pc.event_loop_create_default } else { y with pc := Pc.aborted }
  | Pc.event_loop_create_default =>
      if ok then { y with pc := Pc.wifi_init } else { y with pc := Pc.aborted }
  | Pc.wifi_init =>
      if ok then { y with handlersRegistered := true, pc := Pc.wait_bits }
      else { y with pc := Pc.aborted }
  | Pc.wait_bits =>
      if testBits y.st.bits (WIFI_CONNECTED_BIT ||| WIFI_FAILED_BIT) then
        { y with eventBits := y.st.bits, pc := Pc.check_connected }
      else y
  | Pc.check_connected =>
      if testBits y.eventBits WIFI_CONNECTED_BIT then
        { y with
          st := gpio_set_level RED_LED_PIN 0 (gpio_set_level GREEN_LED_PIN 1 y.st)
          pc := Pc.webserver_init }
      else { y with pc := Pc.webserver_init }
  | Pc.webserver_init =>
      { y with serverStarted := ok, pc := Pc.user_event_loop_init }
  | Pc.user_event_loop_init =>
      if ok then { y with loopCreated := true, pc := Pc.returned }
      else { y with pc := Pc.aborted }
  | Pc.returned => y
  | Pc.aborted => y

/-- One step of the firmware. A label that is not enabled leaves the state as it is:
nothing runs after an abort, `event_handler` runs only once registered, HTTP handlers only
while the server is started, the loop task only once the loop exists. A post from an HTTP
handler to the still missing loop (`app_event_loop_handle` is `NULL` until
`user_event_loop_init`) stops the firmware. -/
def SysStep (idf : Idf) (l : Label) (y : Sys) : Sys :=
  if y.pc = Pc.aborted then y
  else
    match l with
    | Label.main ok => app_main_step ok y
    | Label.netEvent base id =>
        if y.handlersRegistered then { y with st := event_handler idf base id y.st } else y
    | Label.httpStatus =>
        if y.serverStarted then { y with st := (switch_status_get_handler y.st).state } else y
    | Label.httpOn =>
        if y.serverStarted then
          if y.loopCreated then { y with st := (switch_post_on_handler idf y.st).state }
          else { y with pc := Pc.aborted }
        else y
    | Label.httpOff =>
        if y.serverStarted then
          if y.loopCreated then { y with st := (switch_post_off_handler idf y.st).state }
          else { y with pc := Pc.aborted }
        else y
    | Label.loopTask =>
        if y.loopCreated then { y with st := app_event_loop_run_one y.st } else y

/-- Execution of a schedule, first label first. -/
def SysExec (idf : Idf) : List Label → Sys → Sys
  | [], y => y
  | l :: ls, y => SysExec idf ls (SysStep idf l y)

/-- The schedule in which the main task runs alone up to the call of `wifi_init`,
every fallible call succeeding. -/
def untilWifiInit : List Label := List.replicate 6 (Label.main true)

/-- A schedule that brings the main task to the call of `webserver_init`: the main task
runs through `wifi_init`, the address event arrives, the wait returns. -/
def untilWebserverInit (idf : Idf) : List Label :=
  List.replicate 7 (Label.main true) ++
    [Label.netEvent idf.IP_EVENT idf.IP_EVENT_STA_GOT_IP, Label.main true, Label.main true]

/-- The statements of `app_main` from `check_connected` on: the wait has returned. -/
def Pc.gated : Pc → Bool
  | Pc.check_connected => true
  | Pc.webserver_init => true
  | Pc.user_event_loop_init => true
  | Pc.returned => true
  | _ => false

/-- Invariant of the firmware behind the startup gate. -/
structure SysInv (y : Sys) : Prop where
  fresh : testBits y.st.bits SWITCH_ON_BIT = false ∨ y.loopCreated = true
  loop : y.loopCreated = true → testBits y.st.bits WIFI_CONNECTED_BIT = true
  server : y.serverStarted = true → testBits y.st.bits WIFI_CONNECTED_BIT = true
  gated : y.pc.gated = true → testBits y.st.bits WIFI_CONNECTED_BIT = true
  start : y.pc = Pc.event_group_create → y.loopCreated = false ∧ y.serverStarted = false

/-! ## Bit-level facts about the three masks -/

theorem or_and_self (b m : Nat) : (b ||| m) &&& m = m := by
  apply Nat.eq_of_testBit_eq
  intro i
  simp only [Nat.testBit_and, Nat.testBit_or]
  cases b.testBit i <;> cases m.testBit i <;> rfl

theorem or_one_and_two (b : Nat) : (b ||| 1) &&& 2 = b &&& 2 := by
  rw [Nat.and_comm, Nat.and_or_distrib_left, Nat.and_comm]; simp

theorem or_two_and_one (b : Nat) : (b ||| 2) &&& 1 = b &&& 1 := by
  rw [Nat.and_comm, Nat.and_or_distrib_left, Nat.and_comm 1 b]
  have h : (1 : Nat) &&& 2 = 0 := by decide
  rw [h, Nat.or_zero]

theorem clear_one_and_one (b : Nat) : (b &&& (0xFFFFFFFF ^^^ 1)) &&& 1 = 0 := by
  rw [Nat.and_assoc]; simp

theorem clear_one_and_two (b : Nat) : (b &&& (0xFFFFFFFF ^^^ 1)) &&& 2 = b &&& 2 := by
  rw [Nat.and_assoc]; rfl

theorem and_three_split (b : Nat) : b &&& 3 = (b &&& 1) ||| (b &&& 2) := by
  rw [← Nat.and_or_distrib_left]; rfl

theorem testBits_zero (mask : Nat) : testBits 0 mask = false := by
  simp [testBits]

theorem testBits_set_switch (b : Nat) :
    testBits (xEventGroupSetBits b SWITCH_ON_BIT) SWITCH_ON_BIT = true := by
  simp [testBits, xEventGroupSetBits, SWITCH_ON_BIT, or_and_self]

theorem testBits_clear_switch (b : Nat) :
    testBits (xEventGroupClearBits b SWITCH_ON_BIT) SWITCH_ON_BIT = false := by
  simp only [testBits, xEventGroupClearBits, SWITCH_ON_BIT, clear_one_and_one]
  rfl

theorem testBits_set_connected (b : Nat) :
    testBits (xEventGroupSetBits b WIFI_CONNECTED_BIT) WIFI_CONNECTED_BIT = true := by
  simp [testBits, xEventGroupSetBits, WIFI_CONNECTED_BIT, or_and_self]

/-- Setting or clearing `SWITCH_ON_BIT` does not change the test of `WIFI_CONNECTED_BIT`,
and setting `WIFI_CONNECTED_BIT` does not change the test of `SWITCH_ON_BIT`. -/
theorem switch_connected_independent (b : Nat) :
    testBits (xEventGroupSetBits b SWITCH_ON_BIT) WIFI_CONNECTED_BIT
        = testBits b WIFI_CONNECTED_BIT ∧
    testBits (xEventGroupClearBits b SWITCH_ON_BIT) WIFI_CONNECTED_BIT
        = testBits b WIFI_CONNECTED_BIT ∧
    testBits (xEventGroupSetBits b WIFI_CONNECTED_BIT) SWITCH_ON_BIT
        = testBits b SWITCH_ON_BIT := by
  simp only [testBits, xEventGroupSetBits, xEventGroupClearBits, SWITCH_ON_BIT,
    WIFI_CONNECTED_BIT, or_one_and_two, clear_one_and_two, or_two_and_one, and_self]

/-- What the wait of `app_main` establishes while the switch flag is clear. -/
theorem wait_mask_connected (b : Nat)
    (hw : testBits b (WIFI_CONNECTED_BIT ||| WIFI_FAILED_BIT) = true)
    (hs : testBits b SWITCH_ON_BIT = false) :
    testBits b WIFI_CONNECTED_BIT = true := by
  have hm : WIFI_CONNECTED_BIT ||| WIFI_FAILED_BIT = 3 := by decide
  rw [hm] at hw
  simp only [testBits, SWITCH_ON_BIT, WIFI_CONNECTED_BIT, bne_iff_ne, ne_eq,
    bne_eq_false_iff_eq] at *
  rw [and_three_split, hs] at hw
  simpa using hw

/-- A set `WIFI_CONNECTED_BIT` makes the test of `WIFI_FAILED_BIT` succeed as well. -/
theorem connected_tests_failed (b : Nat) (h : testBits b WIFI_CONNECTED_BIT = true) :
    testBits b WIFI_FAILED_BIT = true := by
  simp only [testBits, WIFI_FAILED_BIT, WIFI_CONNECTED_BIT, bne_iff_ne, ne_eq] at *
  intro h3
  rw [and_three_split] at h3
  have h2 : b &&& 2 = 0 := by
    apply Nat.eq_of_testBit_eq
    intro i
    have hi := congrArg (fun n => Nat.testBit n i) h3
    simp only [Nat.testBit_or, Nat.zero_testBit, Bool.or_eq_false_iff] at hi
    simpa using hi.2
  exact h h2

/-! ## Frame facts about the handlers -/

theorem app_event_handler_on (s : State) :
    app_event_handler APP_EVENT APP_EVENT_SWITCH_ON s =
      gpio_set_level LED_PIN 0 { s with bits := xEventGroupSetBits s.bits SWITCH_ON_BIT } := by
  simp [app_event_handler, LED_ACTIVE_LOW]

theorem app_event_handler_off (s : State) :
    app_event_handler APP_EVENT APP_EVENT_SWITCH_OFF s =
      gpio_set_level LED_PIN 1 { s with bits := xEventGroupClearBits s.bits SWITCH_ON_BIT } := by
  simp [app_event_handler, LED_ACTIVE_LOW, APP_EVENT_SWITCH_ON, APP_EVENT_SWITCH_OFF]

/-- The three possible behaviours of `app_event_handler`. -/
theorem app_event_handler_cases (base : Nat) (id : Int) (s : State) :
    app_event_handler base id s =
        gpio_set_level LED_PIN 0 { s with bits := xEventGroupSetBits s.bits SWITCH_ON_BIT } ∨
    app_event_handler base id s =
        gpio_set_level LED_PIN 1 { s with bits := xEventGroupClearBits s.bits SWITCH_ON_BIT } ∨
    app_event_handler base id s = s := by
  unfold app_event_handler
  split
  · left; simp [LED_ACTIVE_LOW]
  · split
    · right; left; simp [LED_ACTIVE_LOW]
    · right; right; rfl

/-- The two possible behaviours of `event_handler`. -/
theorem event_handler_cases (idf : Idf) (base : Nat) (id : Int) (s : State) :
    event_handler idf base id s = s ∨
    event_handler idf base id s =
      { s with bits := xEventGroupSetBits s.bits WIFI_CONNECTED_BIT } := by
  unfold event_handler
  split
  · left; rfl
  · split
    · right; rfl
    · left; rfl

theorem app_event_handler_connected (base : Nat) (id : Int) (s : State) :
    testBits (app_event_handler base id s).bits WIFI_CONNECTED_BIT
      = testBits s.bits WIFI_CONNECTED_BIT := by
  rcases app_event_handler_cases base id s with h | h | h <;> rw [h]
  · exact (switch_connected_independent s.bits).1
  · exact (switch_connected_independent s.bits).2.1

theorem app_event_handler_queue (base : Nat) (id : Int) (s : State) :
    (app_event_handler base id s).queue = s.queue := by
  rcases app_event_handler_cases base id s with h | h | h <;> rw [h] <;> rfl

theorem app_event_handler_other_pins (base : Nat) (id : Int) (s : State) (pin : Nat)
    (hp : pin ≠ LED_PIN) : (app_event_handler base id s).level pin = s.level pin := by
  rcases app_event_handler_cases base id s with h | h | h <;> rw [h] <;>
    simp [gpio_set_level, Function.update, hp]

theorem event_handler_switch (idf : Idf) (base : Nat) (id : Int) (s : State) :
    testBits (event_handler idf base id s).bits SWITCH_ON_BIT
      = testBits s.bits SWITCH_ON_BIT := by
  rcases event_handler_cases idf base id s with h | h <;> rw [h]
  exact (switch_connected_independent s.bits).2.2

theorem event_handler_connected (idf : Idf) (base : Nat) (id : Int) (s : State)
    (hc : testBits s.bits WIFI_CONNECTED_BIT = true) :
    testBits (event_handler idf base id s).bits WIFI_CONNECTED_BIT = true := by
  rcases event_handler_cases idf base id s with h | h <;> rw [h]
  · exact hc
  · exact testBits_set_connected s.bits

theorem event_handler_frame (idf : Idf) (base : Nat) (id : Int) (s : State) :
    (event_handler idf base id s).level = s.level ∧
    (event_handler idf base id s).output = s.output ∧
    (event_handler idf base id s).calls = s.calls ∧
    (event_handler idf base id s).queue = s.queue := by
  rcases event_handler_cases idf base id s with h | h <;> rw [h] <;>
    exact ⟨rfl, rfl, rfl, rfl⟩

/-- State after the handler of `GET /on`: only the queue can differ. -/
theorem switch_post_on_state (idf : Idf) (s : State) :
    (switch_post_on_handler idf s).state =
      { s with queue := if s.queue.length < APP_QUEUE_SIZE
                        then s.queue ++ [Command.TurnOn.event] else s.queue } := by
  unfold switch_post_on_handler esp_event_post_to
  split <;> rfl

/-- State after the handler of `GET /off`: only the queue can differ. -/
theorem switch_post_off_state (idf : Idf) (s : State) :
    (switch_post_off_handler idf s).state =
      { s with queue := if s.queue.length < APP_QUEUE_SIZE
                        then s.queue ++ [Command.TurnOff.event] else s.queue } := by
  unfold switch_post_off_handler esp_event_post_to
  split <;> rfl

theorem app_event_loop_run_one_connected (s : State) :
    testBits (app_event_loop_run_one s).bits WIFI_CONNECTED_BIT
      = testBits s.bits WIFI_CONNECTED_BIT := by
  unfold app_event_loop_run_one
  split
  · rfl
  · rw [app_event_handler_connected]

/-! ## The actuator state machine -/

/-- C1: for every prior state, `app_event_handler` on `(APP_EVENT, APP_EVENT_SWITCH_ON)`
yields a state in which `SWITCH_ON_BIT` tests as set and `LED_PIN` is at level 0 (active),
by one driver call with level 0, and on `(APP_EVENT, APP_EVENT_SWITCH_OFF)` a state in
which `SWITCH_ON_BIT` tests as clear and `LED_PIN` is at level 1 (inactive), by one driver
call with level 1. -/
theorem actuator_transition_table (s : State) :
    (testBits (app_event_handler APP_EVENT APP_EVENT_SWITCH_ON s).bits SWITCH_ON_BIT = true ∧
      (app_event_handler APP_EVENT APP_EVENT_SWITCH_ON s).level LED_PIN = 0 ∧
      (app_event_handler APP_EVENT APP_EVENT_SWITCH_ON s).calls = s.calls ++ [(LED_PIN, 0)]) ∧
    (testBits (app_event_handler APP_EVENT APP_EVENT_SWITCH_OFF s).bits SWITCH_ON_BIT = false ∧
      (app_event_handler APP_EVENT APP_EVENT_SWITCH_OFF s).level LED_PIN = 1 ∧
      (app_event_handler APP_EVENT APP_EVENT_SWITCH_OFF s).calls = s.calls ++ [(LED_PIN, 1)]) := by
  rw [app_event_handler_on, app_event_handler_off]
  refine ⟨⟨testBits_set_switch s.bits, ?_, rfl⟩, ⟨testBits_clear_switch s.bits, ?_, rfl⟩⟩
  · simp [gpio_set_level]
  · simp [gpio_set_level]

/-- C2: for every prior state, after `app_event_handler` has processed TurnOn the handler
of `GET /status` responds with the body "1", and after it has processed TurnOff with the
body "0". -/
theorem status_reflects_last_command (s : State) :
    (switch_status_get_handler (app_event_handler APP_EVENT Command.TurnOn.id s)).body = "1" ∧
    (switch_status_get_handler (app_event_handler APP_EVENT Command.TurnOff.id s)).body = "0" := by
  simp only [Command.id]
  rw [app_event_handler_on, app_event_handler_off]
  simp [switch_status_get_handler, xEventGroupGetBits, gpio_set_level, testBits_set_switch,
    testBits_clear_switch]

/-- View of the actuator after one command, whatever the state before. -/
theorem app_event_handler_command (c : Command) (s : State) :
    testBits (app_event_handler APP_EVENT c.id s).bits SWITCH_ON_BIT
        = decide (c = Command.TurnOn) ∧
    (app_event_handler APP_EVENT c.id s).level LED_PIN = c.driven ∧
    (app_event_handler APP_EVENT c.id s).calls = s.calls ++ [(LED_PIN, c.driven)] ∧
    (app_event_handler APP_EVENT c.id s).queue = s.queue := by
  cases c
  · simp only [Command.id, app_event_handler_on, Command.driven]
    simp [gpio_set_level, testBits_set_switch, LED_ACTIVE_LOW]
  · simp only [Command.id, app_event_handler_off, Command.driven]
    simp [gpio_set_level, testBits_clear_switch, LED_ACTIVE_LOW]

/-- C8: for every state and each command, processing the command twice in a row leaves the
same event-group bits, output levels and queue as processing it once; after TurnOn
`SWITCH_ON_BIT` tests as set and `LED_PIN` is at its active level 0. -/
theorem command_idempotent (s : State) (c : Command) :
    ((app_event_handler APP_EVENT c.id (app_event_handler APP_EVENT c.id s)).bits
        = (app_event_handler APP_EVENT c.id s).bits ∧
      (app_event_handler APP_EVENT c.id (app_event_handler APP_EVENT c.id s)).level
        = (app_event_handler APP_EVENT c.id s).level ∧
      (app_event_handler APP_EVENT c.id (app_event_handler APP_EVENT c.id s)).queue
        = (app_event_handler APP_EVENT c.id s).queue) ∧
    (testBits (app_event_handler APP_EVENT Command.TurnOn.id
        (app_event_handler APP_EVENT Command.TurnOn.id s)).bits SWITCH_ON_BIT = true ∧
      (app_event_handler APP_EVENT Command.TurnOn.id
        (app_event_handler APP_EVENT Command.TurnOn.id s)).level LED_PIN = 0) := by
  refine ⟨?_, ?_⟩
  · cases c
    · simp only [Command.id, app_event_handler_on]
      refine ⟨?_, ?_, rfl⟩
      · simp [gpio_set_level, xEventGroupSetBits, Nat.or_assoc]
      · simp [gpio_set_level]
    · simp only [Command.id, app_event_handler_off]
      refine ⟨?_, ?_, rfl⟩
      · simp [gpio_set_level, xEventGroupClearBits, Nat.and_assoc]
      · simp [gpio_set_level]
  · have h := app_event_handler_command Command.TurnOn
      (app_event_handler APP_EVENT Command.TurnOn.id s)
    refine ⟨by simpa using h.1, ?_⟩
    rw [h.2.1]; rfl

/-! ## The HTTP handlers -/

/-- C6: for every state, each of the three HTTP handlers leaves the event-group bits, every
output level and output enable and the history of driver calls unchanged; the handler of `GET /status` leaves
the whole state unchanged, and the state after the handler of `GET /on` (`GET /off`) is the
state after one `esp_event_post_to` of TurnOn (TurnOff): the event appended to the queue if
there is room, nothing otherwise. -/
theorem http_handlers_single_writer (idf : Idf) (s : State) :
    (switch_status_get_handler s).state = s ∧
    ((switch_post_on_handler idf s).state.bits = s.bits ∧
      (switch_post_on_handler idf s).state.level = s.level ∧
      (switch_post_on_handler idf s).state.output = s.output ∧
      (switch_post_on_handler idf s).state.calls = s.calls ∧
      (switch_post_on_handler idf s).state =
        (esp_event_post_to APP_EVENT APP_EVENT_SWITCH_ON (500 / idf.portTICK_PERIOD_MS) s).1 ∧
      (switch_post_on_handler idf s).state.queue =
        if s.queue.length < APP_QUEUE_SIZE then s.queue ++ [Command.TurnOn.event]
        else s.queue) ∧
    ((switch_post_off_handler idf s).state.bits = s.bits ∧
      (switch_post_off_handler idf s).state.level = s.level ∧
      (switch_post_off_handler idf s).state.output = s.output ∧
      (switch_post_off_handler idf s).state.calls = s.calls ∧
      (switch_post_off_handler idf s).state =
        (esp_event_post_to APP_EVENT APP_EVENT_SWITCH_OFF (500 / idf.portTICK_PERIOD_MS) s).1 ∧
      (switch_post_off_handler idf s).state.queue =
        if s.queue.length < APP_QUEUE_SIZE then s.queue ++ [Command.TurnOff.event]
        else s.queue) := by
  refine ⟨rfl, ⟨?_, ?_, ?_, ?_, rfl, ?_⟩, ⟨?_, ?_, ?_, ?_, rfl, ?_⟩⟩ <;>
    simp only [switch_post_on_state, switch_post_off_state]

/-- C9: the responses of `GET /on` and `GET /off` do not depend on the outcome of the post:
in every state, so both when `esp_event_post_to` returns `ESP_OK` and when it returns
`ESP_ERR_TIMEOUT`, the handler of `/on` sends "1" and returns `ESP_OK` and the handler of
`/off` sends "0" and returns `ESP_OK`; either outcome of the post occurs in some state. -/
theorem post_response_ignores_outcome (idf : Idf) :
    (∀ s : State, ∀ r : EspErr,
      (esp_event_post_to APP_EVENT APP_EVENT_SWITCH_ON (500 / idf.portTICK_PERIOD_MS) s).2 = r →
        (switch_post_on_handler idf s).body = "1" ∧
        (switch_post_on_handler idf s).ret = EspErr.ESP_OK) ∧
    (∀ s : State, ∀ r : EspErr,
      (esp_event_post_to APP_EVENT APP_EVENT_SWITCH_OFF (500 / idf.portTICK_PERIOD_MS) s).2 = r →
        (switch_post_off_handler idf s).body = "0" ∧
        (switch_post_off_handler idf s).ret = EspErr.ESP_OK) ∧
    (∀ (base : Nat) (id : Int) (ticks : Nat) (r : EspErr),
      ∃ s : State, (esp_event_post_to base id ticks s).2 = r) := by
  refine ⟨fun s r _ => ⟨rfl, rfl⟩, fun s r _ => ⟨rfl, rfl⟩, ?_⟩
  intro base id ticks r
  cases r
  · exact ⟨offState, by simp [esp_event_post_to, APP_QUEUE_SIZE, offState]⟩
  · exact ⟨fullState, by simp [esp_event_post_to, APP_QUEUE_SIZE, fullState]⟩

/-- At a full queue the post times out and `GET /on` still answers "1" with `ESP_OK`. -/
theorem post_response_ignores_outcome_witness :
    (esp_event_post_to APP_EVENT APP_EVENT_SWITCH_ON (500 / idfDefault.portTICK_PERIOD_MS)
        fullState).2 = EspErr.ESP_ERR_TIMEOUT ∧
    (switch_post_on_handler idfDefault fullState).body = "1" ∧
    (switch_post_on_handler idfDefault fullState).ret = EspErr.ESP_OK :=
  ⟨by decide, (post_response_ignores_outcome idfDefault).1 fullState EspErr.ESP_ERR_TIMEOUT
    (by decide)⟩

/-! ## Consistency of flag and output -/

theorem consistent_of_eq {s t : State} (hb : t.bits = s.bits) (hl : t.level = s.level)
    (h : Consistent s) : Consistent t := by
  unfold Consistent at *
  rw [hb, hl]; exact h

theorem app_event_handler_consistent (base : Nat) (id : Int) (s : State)
    (h : Consistent s) : Consistent (app_event_handler base id s) := by
  rcases app_event_handler_cases base id s with e | e | e <;> rw [e]
  · simp [Consistent, gpio_set_level, testBits_set_switch]
  · simp [Consistent, gpio_set_level, testBits_clear_switch]
  · exact h

/-- C10: for every state, base and id: if `LED_PIN` is at level 0 exactly when
`SWITCH_ON_BIT` tests as set, then the state after `app_event_handler`, after
`event_handler` and after each of the three HTTP handlers satisfies the same predicate;
and, whether or not that predicate holds before, `app_event_handler` changes neither the
test of `WIFI_CONNECTED_BIT` nor the levels of `GREEN_LED_PIN` and `RED_LED_PIN`, and
`event_handler` changes neither the test of `SWITCH_ON_BIT` nor any output level or output
enable, and calls the driver not at all. -/
theorem handlers_preserve_consistency (idf : Idf) (s : State) (base : Nat) (id : Int) :
    (Consistent s →
      Consistent (app_event_handler base id s) ∧
      Consistent (event_handler idf base id s) ∧
      Consistent (switch_status_get_handler s).state ∧
      Consistent (switch_post_on_handler idf s).state ∧
      Consistent (switch_post_off_handler idf s).state) ∧
    (testBits (app_event_handler base id s).bits WIFI_CONNECTED_BIT
        = testBits s.bits WIFI_CONNECTED_BIT ∧
      (app_event_handler base id s).level GREEN_LED_PIN = s.level GREEN_LED_PIN ∧
      (app_event_handler base id s).level RED_LED_PIN = s.level RED_LED_PIN) ∧
    (testBits (event_handler idf base id s).bits SWITCH_ON_BIT = testBits s.bits SWITCH_ON_BIT ∧
      (event_handler idf base id s).level = s.level ∧
      (event_handler idf base id s).output = s.output ∧
      (event_handler idf base id s).calls = s.calls) := by
  refine ⟨fun h => ⟨app_event_handler_consistent base id s h, ?_, h, ?_, ?_⟩, ⟨?_, ?_, ?_⟩,
    event_handler_switch idf base id s,
    (event_handler_frame idf base id s).1, (event_handler_frame idf base id s).2.1,
    (event_handler_frame idf base id s).2.2.1⟩
  · unfold Consistent
    rw [event_handler_switch, (event_handler_frame idf base id s).1]
    exact h
  · exact consistent_of_eq (by rw [switch_post_on_state]) (by rw [switch_post_on_state]) h
  · exact consistent_of_eq (by rw [switch_post_off_state]) (by rw [switch_post_off_state]) h
  · exact app_event_handler_connected base id s
  · exact app_event_handler_other_pins base id s GREEN_LED_PIN (by decide)
  · exact app_event_handler_other_pins base id s RED_LED_PIN (by decide)

/-- The switched-off state is consistent and stays so when TurnOn is processed. The state
in which `app_main` is entered after a power-on reset is not consistent, and there the
address event handled by `event_handler` still leaves the test of `SWITCH_ON_BIT` and
every output level as they were. -/
theorem handlers_preserve_consistency_witness :
    (Consistent offState ∧
      Consistent (app_event_handler APP_EVENT APP_EVENT_SWITCH_ON offState)) ∧
    (¬ Consistent (boot powerOnLevels).st ∧
      testBits (event_handler idfDefault idfDefault.IP_EVENT idfDefault.IP_EVENT_STA_GOT_IP
          (boot powerOnLevels).st).bits SWITCH_ON_BIT
        = testBits (boot powerOnLevels).st.bits SWITCH_ON_BIT ∧
      (event_handler idfDefault idfDefault.IP_EVENT idfDefault.IP_EVENT_STA_GOT_IP
          (boot powerOnLevels).st).level = (boot powerOnLevels).st.level) :=
  ⟨⟨by simp [Consistent, offState, testBits],
    ((handlers_preserve_consistency idfDefault offState APP_EVENT APP_EVENT_SWITCH_ON).1
      (by simp [Consistent, offState, testBits])).1⟩,
   by simp [Consistent, boot, powerOnLevels, testBits],
   (handlers_preserve_consistency idfDefault (boot powerOnLevels).st idfDefault.IP_EVENT
      idfDefault.IP_EVENT_STA_GOT_IP).2.2.1,
   (handlers_preserve_consistency idfDefault (boot powerOnLevels).st idfDefault.IP_EVENT
      idfDefault.IP_EVENT_STA_GOT_IP).2.2.2.1⟩

/-! ## Ordering of commands -/

theorem app_event_handler_with_queue (base : Nat) (id : Int) (s : State)
    (q : List (Nat × Int)) :
    app_event_handler base id { s with queue := q }
      = { app_event_handler base id s with queue := q } := by
  simp only [app_event_handler]
  split_ifs <;> rfl

theorem processQueued_nil (s : State) : processQueued [] s = { s with queue := [] } := rfl

theorem processQueued_cons (c : Command) (cs : List Command) (s : State) :
    processQueued (c :: cs) s = processQueued cs (app_event_handler APP_EVENT c.id s) := by
  simp only [processQueued, List.length_cons, List.map_cons, app_event_loop_run,
    app_event_loop_run_one, Command.event, app_event_handler_with_queue]

theorem processQueued_fold (cmds : List Command) (s : State) :
    processQueued cmds s =
      { cmds.foldl (fun t c => app_event_handler APP_EVENT c.id t) s with queue := [] } := by
  induction cmds generalizing s with
  | nil => rfl
  | cons c cs ih => rw [processQueued_cons, ih, List.foldl_cons]

theorem processQueued_calls (cmds : List Command) (s : State) :
    (processQueued cmds s).calls = s.calls ++ cmds.map (fun c => (LED_PIN, c.driven)) := by
  induction cmds generalizing s with
  | nil => simp [processQueued_nil]
  | cons c cs ih =>
      rw [processQueued_cons, ih, (app_event_handler_command c s).2.2.1]
      simp

theorem processQueued_last (cmds : List Command) (h : cmds ≠ []) (s : State) :
    testBits (processQueued cmds s).bits SWITCH_ON_BIT
        = decide (cmds.getLast h = Command.TurnOn) ∧
    (processQueued cmds s).level LED_PIN = (cmds.getLast h).driven := by
  induction cmds generalizing s with
  | nil => exact absurd rfl h
  | cons c cs ih =>
      rw [processQueued_cons]
      cases cs with
      | nil =>
          rw [processQueued_nil]
          exact ⟨(app_event_handler_command c s).1, (app_event_handler_command c s).2.1⟩
      | cons d ds =>
          have hne : d :: ds ≠ [] := List.cons_ne_nil d ds
          rw [List.getLast_cons hne]
          exact ih hne _

/-- C7: for every initial state and every non-empty sequence of commands pending in
submission order, the loop task applies `app_event_handler` to every command, in that
order (the result is the left fold of the handler over the sequence, and the driver is
called once per command with that command's level); `SWITCH_ON_BIT` and the level of
`LED_PIN` at the end are those the last command produces from any state. The sequence
TurnOn, TurnOff, TurnOn ends with the flag set and `LED_PIN` at its active level 0. -/
theorem commands_applied_in_order (s : State) (cmds : List Command) (h : cmds ≠ []) :
    processQueued cmds s =
      { cmds.foldl (fun t c => app_event_handler APP_EVENT c.id t) s with queue := [] } ∧
    (processQueued cmds s).calls = s.calls ++ cmds.map (fun c => (LED_PIN, c.driven)) ∧
    (∀ s0 : State,
      testBits (processQueued cmds s).bits SWITCH_ON_BIT
        = testBits (app_event_handler APP_EVENT (cmds.getLast h).id s0).bits SWITCH_ON_BIT ∧
      (processQueued cmds s).level LED_PIN
        = (app_event_handler APP_EVENT (cmds.getLast h).id s0).level LED_PIN) ∧
    (testBits (processQueued [Command.TurnOn, Command.TurnOff, Command.TurnOn] s).bits
        SWITCH_ON_BIT = true ∧
      (processQueued [Command.TurnOn, Command.TurnOff, Command.TurnOn] s).level LED_PIN
        = 0) := by
  refine ⟨processQueued_fold cmds s, processQueued_calls cmds s, ?_, ?_⟩
  · intro s0
    have hl := processQueued_last cmds h s
    have hc := app_event_handler_command (cmds.getLast h) s0
    exact ⟨hl.1.trans hc.1.symm, hl.2.trans hc.2.1.symm⟩
  · have hl := processQueued_last [Command.TurnOn, Command.TurnOff, Command.TurnOn]
      (by decide) s
    exact ⟨by simpa using hl.1, by rw [hl.2]; rfl⟩

/-- From the switched-off state the sequence TurnOff, TurnOn makes two driver calls, first
with level 1 and then with level 0. -/
theorem commands_applied_in_order_witness :
    [Command.TurnOff, Command.TurnOn] ≠ [] ∧
    (processQueued [Command.TurnOff, Command.TurnOn] offState).calls
      = offState.calls ++
          [Command.TurnOff, Command.TurnOn].map (fun c => (LED_PIN, c.driven)) :=
  ⟨by decide, (commands_applied_in_order offState [Command.TurnOff, Command.TurnOn]
    (by decide)).2.1⟩

/-! ## The startup gate -/

theorem sysInv_boot (lv0 : Nat → Nat) : SysInv (boot lv0) :=
  { fresh := Or.inl (testBits_zero SWITCH_ON_BIT)
    loop := by simp [boot]
    server := by simp [boot]
    gated := by simp [boot, Pc.gated]
    start := fun _ => ⟨rfl, rfl⟩ }

theorem app_main_step_inv (ok : Bool) (y : Sys) (h : SysInv y) :
    SysInv (app_main_step ok y) := by
  obtain ⟨st, pc, eb, reg, srv, lp⟩ := y
  obtain ⟨h1, h2, h3, h4, h5⟩ := h
  simp only at h1 h2 h3 h4 h5
  cases pc
  case event_group_create =>
    obtain ⟨hl, hs⟩ := h5 rfl
    subst hl; subst hs
    exact ⟨Or.inl (testBits_zero SWITCH_ON_BIT), by simp [app_main_step], by simp [app_main_step],
      by simp [app_main_step, Pc.gated], by simp [app_main_step]⟩
  case wait_bits =>
    unfold app_main_step
    simp only
    split
    · rename_i hw
      have hc : testBits st.bits WIFI_CONNECTED_BIT = true := by
        rcases h1 with hf | hl
        · exact wait_mask_connected st.bits hw hf
        · exact h2 hl
      exact ⟨h1, h2, h3, fun _ => hc, by simp⟩
    · exact ⟨h1, h2, h3, h4, h5⟩
  case check_connected =>
    have hc := h4 rfl
    unfold app_main_step
    simp only
    split
    · exact ⟨h1, fun _ => hc, fun _ => hc, fun _ => hc, by simp⟩
    · exact ⟨h1, fun _ => hc, fun _ => hc, fun _ => hc, by simp⟩
  case webserver_init =>
    have hc := h4 rfl
    exact ⟨h1, fun _ => hc, fun _ => hc, fun _ => hc, by simp [app_main_step]⟩
  case user_event_loop_init =>
    have hc := h4 rfl
    unfold app_main_step
    simp only
    split
    · exact ⟨Or.inr rfl, fun _ => hc, fun _ => hc, fun _ => hc, by simp⟩
    · exact ⟨h1, fun _ => hc, fun _ => hc, fun _ => hc, by simp⟩
  case returned => exact ⟨h1, h2, h3, h4, h5⟩
  case aborted => exact ⟨h1, h2, h3, h4, h5⟩
  case gpio_green =>
    exact ⟨h1, h2, h3, by simp [app_main_step, Pc.gated], by simp [app_main_step]⟩
  case gpio_red =>
    exact ⟨h1, h2, h3, by simp [app_main_step, Pc.gated], by simp [app_main_step]⟩
  case gpio_led =>
    exact ⟨h1, h2, h3, by simp [app_main_step, Pc.gated], by simp [app_main_step]⟩
  case nvs_flash_init =>
    unfold app_main_step
    simp only
    split
    · exact ⟨h1, h2, h3, by simp [Pc.gated], by simp⟩
    · exact ⟨h1, h2, h3, by simp [Pc.gated], by simp⟩
  case event_loop_create_default =>
    unfold app_main_step
    simp only
    split
    · exact ⟨h1, h2, h3, by simp [Pc.gated], by simp⟩
    · exact ⟨h1, h2, h3, by simp [Pc.gated], by simp⟩
  case wifi_init =>
    unfold app_main_step
    simp only
    split
    · exact ⟨h1, h2, h3, by simp [Pc.gated], by simp⟩
    · exact ⟨h1, h2, h3, by simp [Pc.gated], by simp⟩

theorem sysStep_inv (idf : Idf) (l : Label) (y : Sys) (h : SysInv y) :
    SysInv (SysStep idf l y) := by
  unfold SysStep
  split
  · exact h
  · rename_i hpc
    cases l with
    | main ok => exact app_main_step_inv ok y h
    | netEvent base id =>
        simp only
        split
        · refine ⟨?_, ?_, ?_, ?_, h.start⟩
          · rcases h.fresh with hf | hl
            · left
              simp only [event_handler_switch]
              exact hf
            · exact Or.inr hl
          · exact fun hl => event_handler_connected idf base id y.st (h.loop hl)
          · exact fun hs => event_handler_connected idf base id y.st (h.server hs)
          · exact fun hg => event_handler_connected idf base id y.st (h.gated hg)
        · exact h
    | httpStatus =>
        simp only
        split
        · exact ⟨h.fresh, h.loop, h.server, h.gated, h.start⟩
        · exact h
    | httpOn =>
        simp only
        split
        · rename_i hs
          have hc := h.server hs
          split
          · simp only [switch_post_on_state]
            exact ⟨h.fresh, h.loop, h.server, h.gated, h.start⟩
          · exact ⟨h.fresh, h.loop, h.server, fun _ => hc, by simp⟩
        · exact h
    | httpOff =>
        simp only
        split
        · rename_i hs
          have hc := h.server hs
          split
          · simp only [switch_post_off_state]
            exact ⟨h.fresh, h.loop, h.server, h.gated, h.start⟩
          · exact ⟨h.fresh, h.loop, h.server, fun _ => hc, by simp⟩
        · exact h
    | loopTask =>
        simp only
        split
        · rename_i hl
          have hc := h.loop hl
          have hc2 : testBits (app_event_loop_run_one y.st).bits WIFI_CONNECTED_BIT = true := by
            rw [app_event_loop_run_one_connected]; exact hc
          exact ⟨Or.inr hl, fun _ => hc2, fun _ => hc2, fun _ => hc2, h.start⟩
        · exact h

theorem sysExec_inv (idf : Idf) (ls : List Label) (y : Sys) (h : SysInv y) :
    SysInv (SysExec idf ls y) := by
  induction ls generalizing y with
  | nil => exact h
  | cons l ls ih => exact ih _ (sysStep_inv idf l y h)

/-- C3: in every execution of the firmware from the entry of `app_main` (any schedule of
the main task, the network events, the HTTP handlers and the loop task, any outcome of the
fallible calls, any initial output levels), whenever `webserver_init` is the statement the
main task executes next, or the HTTP server is started, `WIFI_CONNECTED_BIT` or
`WIFI_FAILED_BIT` tests as set in the event group. -/
theorem startup_gating (idf : Idf) (lv0 : Nat → Nat) (ls : List Label)
    (h : (SysExec idf ls (boot lv0)).pc = Pc.webserver_init ∨
      (SysExec idf ls (boot lv0)).serverStarted = true) :
    testBits (SysExec idf ls (boot lv0)).st.bits WIFI_CONNECTED_BIT = true ∨
    testBits (SysExec idf ls (boot lv0)).st.bits WIFI_FAILED_BIT = true := by
  have hinv := sysExec_inv idf ls (boot lv0) (sysInv_boot lv0)
  rcases h with hp | hs
  · exact Or.inl (hinv.gated (by rw [hp]; rfl))
  · exact Or.inl (hinv.server hs)

/-- The schedule `untilWebserverInit` reaches the call of `webserver_init`, and there
`WIFI_CONNECTED_BIT` or `WIFI_FAILED_BIT` tests as set. -/
theorem startup_gating_witness :
    ((SysExec idfDefault (untilWebserverInit idfDefault) (boot powerOnLevels)).pc
        = Pc.webserver_init ∨
      (SysExec idfDefault (untilWebserverInit idfDefault) (boot powerOnLevels)).serverStarted
        = true) ∧
    (testBits (SysExec idfDefault (untilWebserverInit idfDefault) (boot powerOnLevels)).st.bits
        WIFI_CONNECTED_BIT = true ∨
      testBits (SysExec idfDefault (untilWebserverInit idfDefault) (boot powerOnLevels)).st.bits
        WIFI_FAILED_BIT = true) :=
  ⟨Or.inl (by decide),
   startup_gating idfDefault powerOnLevels (untilWebserverInit idfDefault) (Or.inl (by decide))⟩

/-! ## The mask of the failure flag -/

/-- The mask of the failure flag is the union of the other two masks. -/
theorem failed_mask_is_union : WIFI_FAILED_BIT = SWITCH_ON_BIT ||| WIFI_CONNECTED_BIT := by
  decide

/-- C4 at the event-group value 0: the failure flag tests as clear; after `event_handler`
has handled the address event, which sets `WIFI_CONNECTED_BIT` only, the test of
`WIFI_FAILED_BIT` succeeds, and so it does after setting `SWITCH_ON_BIT` only; clearing
`WIFI_FAILED_BIT` in the value 3 clears the tests of the other two flags. -/
theorem failed_flag_not_independent :
    testBits 0 WIFI_FAILED_BIT = false ∧
    testBits (xEventGroupSetBits 0 WIFI_CONNECTED_BIT) WIFI_FAILED_BIT = true ∧
    testBits (event_handler idfDefault idfDefault.IP_EVENT idfDefault.IP_EVENT_STA_GOT_IP
      (boot powerOnLevels).st).bits WIFI_FAILED_BIT = true ∧
    testBits (xEventGroupSetBits 0 SWITCH_ON_BIT) WIFI_FAILED_BIT = true ∧
    (testBits 3 SWITCH_ON_BIT = true ∧
      testBits (xEventGroupClearBits 3 WIFI_FAILED_BIT) SWITCH_ON_BIT = false) ∧
    (testBits 3 WIFI_CONNECTED_BIT = true ∧
      testBits (xEventGroupClearBits 3 WIFI_FAILED_BIT) WIFI_CONNECTED_BIT = false) := by
  decide

/-! ## Output levels when network bring-up starts -/

/-- Up to the call of `wifi_init` the main task makes the three pins outputs, drives
`RED_LED_PIN` to 1 and no other pin: `LED_PIN` and `GREEN_LED_PIN` keep the level they had when `app_main` was entered. -/
theorem levels_until_wifi_init (idf : Idf) (lv0 : Nat → Nat) :
    (SysExec idf untilWifiInit (boot lv0)).pc = Pc.wifi_init ∧
    (SysExec idf untilWifiInit (boot lv0)).st.calls = [(RED_LED_PIN, 1)] ∧
    ((SysExec idf untilWifiInit (boot lv0)).st.output GREEN_LED_PIN = true ∧
      (SysExec idf untilWifiInit (boot lv0)).st.output RED_LED_PIN = true ∧
      (SysExec idf untilWifiInit (boot lv0)).st.output LED_PIN = true) ∧
    (SysExec idf untilWifiInit (boot lv0)).st.level RED_LED_PIN = 1 ∧
    (SysExec idf untilWifiInit (boot lv0)).st.level LED_PIN = lv0 LED_PIN ∧
    (SysExec idf untilWifiInit (boot lv0)).st.level GREEN_LED_PIN = lv0 GREEN_LED_PIN := by
  refine ⟨rfl, rfl, ⟨?_, ?_, ?_⟩, ?_, ?_, ?_⟩ <;>
    simp [untilWifiInit, SysExec, SysStep, app_main_step, boot, gpio_set_level,
      gpio_set_direction, gpio_reset_pin, Function.update, RED_LED_PIN, LED_PIN,
      GREEN_LED_PIN]

/-- C5 after a power-on reset: when the main task reaches the call of `wifi_init`,
`LED_PIN` is an output, `RED_LED_PIN` is at 1 and `GREEN_LED_PIN` at 0, `SWITCH_ON_BIT`
tests as clear, and `LED_PIN` is at level 0. That is the level TurnOn drives (active), not the level 1 that
TurnOff drives (inactive). -/
theorem startup_levels_power_on :
    (SysExec idfDefault untilWifiInit (boot powerOnLevels)).pc = Pc.wifi_init ∧
    (SysExec idfDefault untilWifiInit (boot powerOnLevels)).st.output LED_PIN = true ∧
    (SysExec idfDefault untilWifiInit (boot powerOnLevels)).st.level RED_LED_PIN = 1 ∧
    (SysExec idfDefault untilWifiInit (boot powerOnLevels)).st.level GREEN_LED_PIN = 0 ∧
    testBits (SysExec idfDefault untilWifiInit (boot powerOnLevels)).st.bits SWITCH_ON_BIT
      = false ∧
    (SysExec idfDefault untilWifiInit (boot powerOnLevels)).st.level LED_PIN = 0 ∧
    (app_event_handler APP_EVENT APP_EVENT_SWITCH_ON
      (SysExec idfDefault untilWifiInit (boot powerOnLevels)).st).level LED_PIN = 0 ∧
    (app_event_handler APP_EVENT APP_EVENT_SWITCH_OFF
      (SysExec idfDefault untilWifiInit (boot powerOnLevels)).st).level LED_PIN = 1 := by
  decide

end EspHomekit
